import Mathlib

/-!
Shallow embedding of `src/chatbot.ts` (CDP AgentKit chatbot script).

The script is sequential orchestration: environment validation, wallet
snapshot load/persist around agent initialization, and an interactive
chat loop streaming agent responses.  Pure logic is translated to Lean
functions; the effectful parts (console output, file access, reader
lifecycle, process exit) are made explicit as event traces and result
records so that the spec's claims about them become provable statements.

External SDK collaborators (language-model client, wallet provider,
AgentKit, LangChain agent) are opaque in the source and are modelled as
parameters: the agent is a function from a message to either a thrown
error message or the full list of streamed chunks, and the exported
wallet is passed already JSON-serialized (the source writes
`JSON.stringify(exportedWallet)` verbatim).
-/

/-- Process environment: `process.env[name]` is `none` when the variable
is unset. -/
abbrev Env := String → Option String

/-- JavaScript truthiness of an environment lookup: `undefined` and the
empty string are falsy (`!process.env[varName]`). -/
def truthy : Option String → Bool
  | none => false
  | some s => !(s == "")

/-- Model of JS `x.toLowerCase()` (ASCII range, which covers every string
the script compares). -/
def toLowerCase (s : String) : String := ⟨s.data.map Char.toLower⟩

/-- One line of console output, tagged by the console method used. -/
inductive ConsoleLine
  | out (s : String)
  | err (s : String)
  | warn (s : String)
deriving DecidableEq, Repr

/-- The three required credential variables (chatbot.ts line 17). -/
def requiredVars : List String :=
  ["OPENAI_API_KEY", "CDP_API_KEY_NAME", "CDP_API_KEY_PRIVATE_KEY"]

/-- The names collected by the `requiredVars.forEach` loop (lines 18-22):
those whose value is falsy. -/
def missingVars (env : Env) : List String :=
  requiredVars.filter (fun v => !truthy (env v))

/-- The placeholder assignment echoed for a missing variable (line 28). -/
def placeholderLine (v : String) : ConsoleLine :=
  ConsoleLine.err (v ++ "=your_" ++ toLowerCase v ++ "_here")

/-- Model of `validateEnvironment` (lines 13-37): returns the console output and
`some 1` when the process is terminated via `process.exit(1)`.  The
optional `NETWORK_ID` warning is only reached when no required variable
is missing, because `process.exit` does not return. -/
def validateEnvironment (env : Env) : List ConsoleLine × Option Nat :=
  let missing := missingVars env
  if missing.isEmpty then
    (if truthy (env "NETWORK_ID") then []
     else [ConsoleLine.warn "Warning: NETWORK_ID not set, defaulting to base-sepolia testnet"],
     none)
  else
    (ConsoleLine.err "Error: Required environment variables are not set" ::
       missing.map placeholderLine,
     some 1)

/-- Concrete environment with every variable set. -/
def envAllSet : Env := fun _ => some "x"

/-- Concrete environment missing two of the three required variables. -/
def envMissingTwo : Env := fun v => if v == "CDP_API_KEY_NAME" then some "k" else none

theorem missingVars_eq_nil_iff (env : Env) :
    missingVars env = [] ↔ ∀ v ∈ requiredVars, truthy (env v) = true := by
  unfold missingVars
  rw [List.filter_eq_nil_iff]
  constructor
  · intro h v hv
    have := h v hv
    simpa using this
  · intro h v hv
    simpa using h v hv

/-- C4: the Environment Validator terminates the process with status 1
iff some required credential variable is absent or empty; when it does,
every missing name is echoed as a placeholder assignment; when all three
are present it does not terminate the process. -/
theorem validateEnvironment_spec (env : Env) :
    ((validateEnvironment env).2 = some 1 ↔
       ∃ v ∈ requiredVars, truthy (env v) = false)
    ∧ (∀ v ∈ requiredVars, truthy (env v) = false →
        placeholderLine v ∈ (validateEnvironment env).1)
    ∧ ((∀ v ∈ requiredVars, truthy (env v) = true) →
        (validateEnvironment env).2 = none) := by
  refine ⟨?_, ?_, ?_⟩
  · constructor
    · intro h
      by_contra hno
      push_neg at hno
      have hall : ∀ v ∈ requiredVars, truthy (env v) = true := by
        intro v hv
        have := hno v hv
        simpa using this
      have hnil : missingVars env = [] := (missingVars_eq_nil_iff env).mpr hall
      unfold validateEnvironment at h
      rw [hnil] at h
      simp at h
    · rintro ⟨v, hv, hfalse⟩
      have hne : missingVars env ≠ [] := by
        intro hnil
        have := (missingVars_eq_nil_iff env).mp hnil v hv
        rw [this] at hfalse
        exact absurd hfalse (by simp)
      unfold validateEnvironment
      have : (missingVars env).isEmpty = false := by
        rw [List.isEmpty_eq_false_iff_exists_mem]
        rcases List.exists_mem_of_ne_nil _ hne with ⟨a, ha⟩
        exact ⟨a, ha⟩
      simp [this]
  · intro v hv hfalse
    have hmem : v ∈ missingVars env := by
      unfold missingVars
      rw [List.mem_filter]
      exact ⟨hv, by simp [hfalse]⟩
    have hne : (missingVars env).isEmpty = false := by
      rw [List.isEmpty_eq_false_iff_exists_mem]
      exact ⟨v, hmem⟩
    unfold validateEnvironment
    simp only [hne]
    simp only [Bool.false_eq_true, if_false]
    right
    exact List.mem_map_of_mem placeholderLine hmem
  · intro hall
    have hnil : missingVars env = [] := (missingVars_eq_nil_iff env).mpr hall
    unfold validateEnvironment
    rw [hnil]
    simp

/-- Witness for C4: with two variables missing the validator exits 1 and
echoes the placeholder for each; with everything set it does not exit. -/
theorem validateEnvironment_spec_witness :
    (validateEnvironment envMissingTwo).2 = some 1
    ∧ placeholderLine "OPENAI_API_KEY" ∈ (validateEnvironment envMissingTwo).1
    ∧ placeholderLine "CDP_API_KEY_PRIVATE_KEY" ∈ (validateEnvironment envMissingTwo).1
    ∧ (validateEnvironment envAllSet).2 = none := by
  refine ⟨?_, ?_, ?_, ?_⟩
  · exact (validateEnvironment_spec envMissingTwo).1.mpr
      ⟨"OPENAI_API_KEY", by decide, by decide⟩
  · exact (validateEnvironment_spec envMissingTwo).2.1 "OPENAI_API_KEY"
      (by decide) (by decide)
  · exact (validateEnvironment_spec envMissingTwo).2.1 "CDP_API_KEY_PRIVATE_KEY"
      (by decide) (by decide)
  · exact (validateEnvironment_spec envAllSet).2.2 (by decide)

/-! ## Wallet snapshot file and agent initialization (lines 41-111) -/

/-- State of `wallet_data.txt` on disk: absent, present but unreadable
(`readFileSync` throws), or readable with the given contents. -/
inductive FileState
  | absent
  | unreadable
  | readable (contents : String)
deriving DecidableEq, Repr

/-- One access to the wallet snapshot file. -/
inductive FileOp
  | statOp
  | readOp
  | writeOp (contents : String)
deriving DecidableEq, Repr

/-- The wallet snapshot file name (line 41). -/
def WALLET_DATA_FILE : String := "wallet_data.txt"

/-- Model of `fs.existsSync` on the snapshot file. -/
def existsSync : FileState → Bool
  | FileState.absent => false
  | _ => true

/-- Model of `fs.readFileSync` on the snapshot file: throws (an `Except.error`)
when the file is unreadable. -/
def readFileSync : FileState → Except String String
  | FileState.readable c => Except.ok c
  | _ => Except.error "EACCES: permission denied"

/-- The snapshot-loading step (lines 53-63): `existsSync` guard, then a
`readFileSync` wrapped in try/catch that logs and continues with
`walletDataStr = null`.  Returns the wallet data string, the console
error lines, and the file accesses performed; an `Except.error` would
mean an exception escaping the step. -/
def loadWalletData (fs : FileState) :
    Except String (Option String × List ConsoleLine × List FileOp) :=
  if existsSync fs then
    match readFileSync fs with
    | Except.ok c => Except.ok (some c, [], [FileOp.statOp, FileOp.readOp])
    | Except.error e =>
        Except.ok (none, [ConsoleLine.err ("Error reading wallet data: " ++ e)],
                   [FileOp.statOp, FileOp.readOp])
  else
    Except.ok (none, [], [FileOp.statOp])

/-- JS `x || undefined` on a nullable string (line 68). -/
def jsOrUndefined (o : Option String) : Option String :=
  if truthy o then o else none

/-- JS `x || d` on an optional string with a string default (line 69). -/
def jsOrDefault (o : Option String) (d : String) : String :=
  match o with
  | some s => if s == "" then d else s
  | none => d

/-- The wallet provider configuration object (lines 65-70). -/
structure WalletConfig where
  apiKeyName : Option String
  apiKeyPrivateKey : Option String
  cdpWalletData : Option String
  networkId : String
deriving DecidableEq, Repr

/-- Result of a successful `initializeAgent` run: the loaded wallet data
string, the wallet provider configuration, every access to the snapshot
file in order, the console error lines, and the final file state. -/
structure InitResult where
  walletDataStr : Option String
  config : WalletConfig
  fileOps : List FileOp
  logs : List ConsoleLine
  finalFile : FileState
deriving DecidableEq, Repr

/-- Model of `initializeAgent` (lines 47-111).  The external SDK constructor calls
are opaque and modelled as succeeding; `exportedWalletJson` stands for
`JSON.stringify(await walletProvider.exportWallet())`, which line 104
writes to the snapshot file with `fs.writeFileSync`, unconditionally
overwriting.  An exception escaping the loader step would propagate to
the outer catch (log and rethrow, line 107-110), hence the `Except`. -/
def initializeAgent (env : Env) (fs : FileState) (exportedWalletJson : String) :
    Except String InitResult :=
  match loadWalletData fs with
  | Except.error e => Except.error e
  | Except.ok (walletDataStr, logs, ops) =>
      Except.ok
        { walletDataStr := walletDataStr
          config :=
            { apiKeyName := env "CDP_API_KEY_NAME"
              apiKeyPrivateKey := env "CDP_API_KEY_PRIVATE_KEY"
              cdpWalletData := jsOrUndefined walletDataStr
              networkId := jsOrDefault (env "NETWORK_ID") "base-sepolia" }
          fileOps := ops ++ [FileOp.writeOp exportedWalletJson]
          logs := logs
          finalFile := FileState.readable exportedWalletJson }

/-- Whether a file access is a write. -/
def isWriteOp : FileOp → Bool
  | FileOp.writeOp _ => true
  | _ => false

/-- The snapshot-file accesses of an initialization run (empty on the
unreachable error branch). -/
def initFileOps (x : Except String InitResult) : List FileOp :=
  match x with
  | Except.ok r => r.fileOps
  | Except.error _ => []

/-- Final snapshot-file state of an initialization run, when it succeeds. -/
def initFinalFile (x : Except String InitResult) : Option FileState :=
  match x with
  | Except.ok r => some r.finalFile
  | Except.error _ => none

/-- Wallet provider configuration of an initialization run, when it
succeeds. -/
def initConfig (x : Except String InitResult) : Option WalletConfig :=
  match x with
  | Except.ok r => some r.config
  | Except.error _ => none

/-- Counterexample to C2: when the snapshot file is present,
initialization stats and reads it before the final write, so the file is
accessed three times (a read among them), not touched exactly once by a
single write. -/
theorem wallet_single_touch_cex :
    initFileOps (initializeAgent envAllSet (FileState.readable "old") "w")
      = [FileOp.statOp, FileOp.readOp, FileOp.writeOp "w"]
    ∧ FileOp.readOp ∈
        initFileOps (initializeAgent envAllSet (FileState.readable "old") "w")
    ∧ (initFileOps (initializeAgent envAllSet (FileState.readable "old") "w")).length ≠ 1 := by
  decide

/-- C2 amended: all access to `wallet_data.txt` happens during
initialization; it consists of an existence check, a read when the file
is present (and only then), and exactly one write, which is the last
access. -/
theorem wallet_file_access_spec (env : Env) (fs : FileState) (json : String) :
    ∀ r, initializeAgent env fs json = Except.ok r →
      r.fileOps.filter isWriteOp = [FileOp.writeOp json]
      ∧ r.fileOps.getLast? = some (FileOp.writeOp json)
      ∧ (fs = FileState.absent → FileOp.readOp ∉ r.fileOps)
      ∧ (fs ≠ FileState.absent → FileOp.readOp ∈ r.fileOps) := by
  intro r hr
  cases fs with
  | absent =>
      simp only [initializeAgent, loadWalletData, existsSync, readFileSync] at hr
      cases hr
      exact ⟨rfl, rfl, fun _ => by simp, fun h => absurd rfl h⟩
  | unreadable =>
      simp only [initializeAgent, loadWalletData, existsSync, readFileSync] at hr
      cases hr
      refine ⟨rfl, rfl, fun h => ?_, fun _ => ?_⟩
      · exact absurd h (by simp)
      · simp
  | readable c =>
      simp only [initializeAgent, loadWalletData, existsSync, readFileSync] at hr
      cases hr
      refine ⟨rfl, rfl, fun h => ?_, fun _ => ?_⟩
      · exact absurd h (by simp)
      · simp

/-- Witness for C2's amended claim at a concrete environment, file state
and exported wallet. -/
theorem wallet_file_access_spec_witness :
    (initFileOps (initializeAgent envAllSet FileState.absent "w")).filter isWriteOp
      = [FileOp.writeOp "w"]
    ∧ FileOp.readOp ∉ initFileOps (initializeAgent envAllSet FileState.absent "w") := by
  rcases he : initializeAgent envAllSet FileState.absent "w" with e | r
  · simp [initializeAgent, loadWalletData, existsSync, readFileSync] at he
  · have h := wallet_file_access_spec envAllSet FileState.absent "w" r he
    exact ⟨h.1, h.2.2.1 rfl⟩

/-- C6: after every successful initialization the snapshot file exists
with contents exactly the JSON-serialized wallet export, whatever the
prior state of the file was (unconditional overwrite), and that write is
the last access to the file. -/
theorem wallet_persist_spec (env : Env) (fs : FileState) (json : String) :
    ∀ r, initializeAgent env fs json = Except.ok r →
      r.finalFile = FileState.readable json
      ∧ existsSync r.finalFile = true
      ∧ r.fileOps.getLast? = some (FileOp.writeOp json) := by
  intro r hr
  cases fs <;>
    · simp only [initializeAgent, loadWalletData, existsSync, readFileSync] at hr
      cases hr
      exact ⟨rfl, rfl, rfl⟩

/-- Witness for C6: initializing over an existing snapshot replaces its
contents. -/
theorem wallet_persist_spec_witness :
    initFinalFile (initializeAgent envAllSet (FileState.readable "old") "new")
      = some (FileState.readable "new") := by
  rcases he : initializeAgent envAllSet (FileState.readable "old") "new" with e | r
  · simp [initializeAgent, loadWalletData, existsSync, readFileSync] at he
  · have h := wallet_persist_spec envAllSet (FileState.readable "old") "new" r he
    show some r.finalFile = some (FileState.readable "new")
    rw [h.1]

/-- C7: the snapshot-loading step never lets an exception escape; when
the file is absent or unreadable it yields no wallet data (a read
failure is additionally logged), and initialization then configures the
wallet provider without a snapshot. -/
theorem snapshot_load_spec (fs : FileState) :
    (∃ w, loadWalletData fs = Except.ok w)
    ∧ (fs = FileState.absent →
        loadWalletData fs = Except.ok (none, [], [FileOp.statOp]))
    ∧ (fs = FileState.unreadable →
        ∃ log ops, loadWalletData fs = Except.ok (none, [log], ops))
    ∧ (∀ env json, fs = FileState.absent ∨ fs = FileState.unreadable →
        ∀ r, initializeAgent env fs json = Except.ok r →
          r.config.cdpWalletData = none) := by
  refine ⟨?_, ?_, ?_, ?_⟩
  · cases fs <;> exact ⟨_, rfl⟩
  · intro h; subst h; rfl
  · intro h; subst h; exact ⟨_, _, rfl⟩
  · intro env json hfs r hr
    rcases hfs with h | h <;>
      · subst h
        simp only [initializeAgent, loadWalletData, existsSync, readFileSync] at hr
        cases hr
        rfl

/-- Witness for C7 at the unreadable file state. -/
theorem snapshot_load_spec_witness :
    (∃ log ops, loadWalletData FileState.unreadable = Except.ok (none, [log], ops))
    ∧ Option.map WalletConfig.cdpWalletData
        (initConfig (initializeAgent envAllSet FileState.unreadable "w")) = some none := by
  refine ⟨(snapshot_load_spec FileState.unreadable).2.2.1 rfl, ?_⟩
  rcases he : initializeAgent envAllSet FileState.unreadable "w" with e | r
  · simp [initializeAgent, loadWalletData, existsSync, readFileSync] at he
  · have h := (snapshot_load_spec FileState.unreadable).2.2.2 envAllSet "w" (Or.inr rfl) r he
    show some r.config.cdpWalletData = some none
    rw [h]

/-- Concrete environment with the credentials set but no `NETWORK_ID`. -/
def envNoNetwork : Env := fun v => if v == "NETWORK_ID" then none else some "x"

/-- Concrete environment with no variable set at all. -/
def envEmpty : Env := fun _ => none

/-- Counterexample to C8: in an environment where `NETWORK_ID` is unset
but a required credential is also missing, the validator terminates the
process with status 1 at line 30 before the warning at line 35 is
reached, so no warning is emitted and the program does not proceed. -/
theorem network_default_cex :
    envEmpty "NETWORK_ID" = none
    ∧ (validateEnvironment envEmpty).2 = some 1
    ∧ ConsoleLine.warn "Warning: NETWORK_ID not set, defaulting to base-sepolia testnet"
        ∉ (validateEnvironment envEmpty).1 := by
  decide

/-- C8 amended: with the required credentials present and `NETWORK_ID`
unset, the validator emits the non-fatal warning and does not terminate
the process, and initialization configures the wallet provider with the
default test network `base-sepolia`.  (Without the credentials the
validator exits 1 before the warning is reached.) -/
theorem network_default_spec (env : Env) (fs : FileState) (json : String)
    (hreq : ∀ v ∈ requiredVars, truthy (env v) = true)
    (hnet : env "NETWORK_ID" = none) :
    (validateEnvironment env).2 = none
    ∧ ConsoleLine.warn "Warning: NETWORK_ID not set, defaulting to base-sepolia testnet"
        ∈ (validateEnvironment env).1
    ∧ ∀ r, initializeAgent env fs json = Except.ok r →
        r.config.networkId = "base-sepolia" := by
  have hnil : missingVars env = [] := (missingVars_eq_nil_iff env).mpr hreq
  refine ⟨?_, ?_, ?_⟩
  · unfold validateEnvironment
    rw [hnil]
    simp
  · unfold validateEnvironment
    rw [hnil, hnet]
    simp [truthy]
  · intro r hr
    cases fs <;>
      · simp only [initializeAgent, loadWalletData, existsSync, readFileSync] at hr
        cases hr
        simp [jsOrDefault, hnet]

/-- Witness for C8 at a concrete environment with no network identifier. -/
theorem network_default_spec_witness :
    (validateEnvironment envNoNetwork).2 = none
    ∧ ConsoleLine.warn "Warning: NETWORK_ID not set, defaulting to base-sepolia testnet"
        ∈ (validateEnvironment envNoNetwork).1
    ∧ Option.map WalletConfig.networkId
        (initConfig (initializeAgent envNoNetwork FileState.absent "w"))
        = some "base-sepolia" := by
  have h := network_default_spec envNoNetwork FileState.absent "w" (by decide) (by decide)
  refine ⟨h.1, h.2.1, ?_⟩
  rcases he : initializeAgent envNoNetwork FileState.absent "w" with e | r
  · simp [initializeAgent, loadWalletData, existsSync, readFileSync] at he
  · show some r.config.networkId = some "base-sepolia"
    rw [h.2.2 r he]

/-! ## Interactive chat loop (lines 114-178)

The loop's observable behaviour is modelled as a trace of events.  The
agent collaborator is a parameter: sending a message either throws (an
`Except.error` carrying the error message, covering
`await agent.stream(...)` or stream consumption rejecting) or yields the
complete ordered list of streamed chunks. -/

/-- One streamed chunk: `agent := some s` models a chunk with an
`"agent"` key whose `messages[0].content` is `s`, likewise `tools`. -/
structure Chunk where
  agent : Option String
  tools : Option String
deriving DecidableEq, Repr

/-- An observable event of the chat loop. -/
inductive Event
  | log (s : String)
  | logErr (s : String)
  | promptShown (p : String)
  | lineRead (s : String)
  | sendToAgent (msg : String)
  | closeReader
  | exitProcess (code : Nat)
deriving DecidableEq, Repr

/-- The separator printed after every chunk (lines 145 and 167). -/
def separator : String := "-------------------"

/-- Console output for one chunk (lines 139-146 and 161-168): the agent
content if the chunk has an `"agent"` key, else the tools content if it
has a `"tools"` key, else nothing; then the separator in all cases. -/
def chunkEvents (c : Chunk) : List Event :=
  (match c.agent with
   | some s => [Event.log s]
   | none =>
     match c.tools with
     | some s => [Event.log s]
     | none => []) ++ [Event.log separator]

/-- Console output for a fully consumed stream. -/
def streamEvents (chunks : List Chunk) : List Event :=
  chunks.flatMap chunkEvents

/-- How the `while (true)` loop was left. -/
inductive LoopExit
  | broke
  | errored
  | pending
deriving DecidableEq, Repr

/-- Final fate of the process as observed from `runChatMode`. -/
inductive Outcome
  | exitedZero
  | exitedNonzero
  | awaitingInput
deriving DecidableEq, Repr

/-- The fixed scripted opening prompt (line 132). -/
def initialPrompt : String := "What game can the user play against the agent?"

/-- The `while (true)` body (lines 148-169), iterated over the script of
input lines: prompt, read, break on a case-insensitive `exit`, otherwise
forward the line and print the streamed chunks.  A thrown error is
caught by the surrounding catch (lines 170-174): the message is printed
and `process.exit(1)` runs, so no further event follows.  An exhausted
script leaves the loop blocked awaiting input. -/
def chatLoop (agent : String → Except String (List Chunk)) :
    List String → List Event × LoopExit
  | [] => ([], LoopExit.pending)
  | line :: rest =>
    if toLowerCase line == "exit" then
      ([Event.promptShown "> ", Event.lineRead line, Event.log "Exiting..."],
       LoopExit.broke)
    else
      match agent line with
      | Except.error msg =>
          ([Event.promptShown "> ", Event.lineRead line, Event.sendToAgent line,
            Event.logErr ("Error: " ++ msg), Event.exitProcess 1],
           LoopExit.errored)
      | Except.ok chunks =>
          ([Event.promptShown "> ", Event.lineRead line, Event.sendToAgent line]
             ++ streamEvents chunks ++ (chatLoop agent rest).1,
           (chatLoop agent rest).2)

/-- Events preceding the first streamed chunk: the banner (line 121), the
prompt echo (line 133) and the dispatch of the scripted opening prompt
(lines 134-137). -/
def chatPreamble : List Event :=
  [Event.log "Running in chat mode... Type 'exit' to quit",
   Event.log ("\nPrompt: " ++ initialPrompt),
   Event.sendToAgent initialPrompt]

/-- Model of `runChatMode` (lines 120-178) over a script of input lines.
The finally clause holding `rl.close()` runs only when the try block is
left by normal control flow (the `break`): `process.exit(1)` inside the
catch terminates the Node process immediately and the finalizer never
executes, so no `closeReader` event is emitted on the error paths. -/
def runChatMode (agent : String → Except String (List Chunk))
    (inputs : List String) : List Event × Outcome :=
  match agent initialPrompt with
  | Except.error msg =>
      (chatPreamble ++ [Event.logErr ("Error: " ++ msg), Event.exitProcess 1],
       Outcome.exitedNonzero)
  | Except.ok chunks =>
      match chatLoop agent inputs with
      | (evs, LoopExit.broke) =>
          (chatPreamble ++ streamEvents chunks ++ evs ++ [Event.closeReader],
           Outcome.exitedZero)
      | (evs, LoopExit.errored) =>
          (chatPreamble ++ streamEvents chunks ++ evs, Outcome.exitedNonzero)
      | (evs, LoopExit.pending) =>
          (chatPreamble ++ streamEvents chunks ++ evs, Outcome.awaitingInput)

/-- A concrete chunk carrying only an agent message. -/
def chunkAgentOnly : Chunk := { agent := some "hello", tools := none }

/-- A concrete agent that always streams one agent-tagged chunk. -/
def agentOkConst : String → Except String (List Chunk) :=
  fun _ => Except.ok [chunkAgentOnly]

/-- A concrete agent whose stream always throws. -/
def agentBoom : String → Except String (List Chunk) :=
  fun _ => Except.error "boom"

/-! ## Helper lemmas about stream output and the loop trace -/

theorem chunkEvents_mem (c : Chunk) (e : Event) (he : e ∈ chunkEvents c) :
    ∃ s, e = Event.log s := by
  rcases c with ⟨a, t⟩
  cases a with
  | some s =>
      simp [chunkEvents] at he
      rcases he with h | h
      · exact ⟨s, h⟩
      · exact ⟨separator, h⟩
  | none =>
      cases t with
      | some s =>
          simp [chunkEvents] at he
          rcases he with h | h
          · exact ⟨s, h⟩
          · exact ⟨separator, h⟩
      | none =>
          simp [chunkEvents] at he
          exact ⟨separator, he⟩

theorem streamEvents_mem (cs : List Chunk) (e : Event) (he : e ∈ streamEvents cs) :
    ∃ s, e = Event.log s := by
  unfold streamEvents at he
  rw [List.mem_flatMap] at he
  rcases he with ⟨c, _, hc⟩
  exact chunkEvents_mem c e hc

theorem streamEvents_no_close (cs : List Chunk) :
    Event.closeReader ∉ streamEvents cs := by
  intro h
  rcases streamEvents_mem cs _ h with ⟨s, hs⟩
  exact absurd hs (by simp)

theorem streamEvents_no_send (m : String) (cs : List Chunk) :
    Event.sendToAgent m ∉ streamEvents cs := by
  intro h
  rcases streamEvents_mem cs _ h with ⟨s, hs⟩
  exact absurd hs (by simp)

theorem streamEvents_no_prompt (p : String) (cs : List Chunk) :
    Event.promptShown p ∉ streamEvents cs := by
  intro h
  rcases streamEvents_mem cs _ h with ⟨s, hs⟩
  exact absurd hs (by simp)

theorem chatLoop_cons_exit_fst (agent : String → Except String (List Chunk))
    (line : String) (rest : List String)
    (hline : (toLowerCase line == "exit") = true) :
    (chatLoop agent (line :: rest)).1
      = [Event.promptShown "> ", Event.lineRead line, Event.log "Exiting..."] := by
  simp [chatLoop, hline]

theorem chatLoop_cons_exit_snd (agent : String → Except String (List Chunk))
    (line : String) (rest : List String)
    (hline : (toLowerCase line == "exit") = true) :
    (chatLoop agent (line :: rest)).2 = LoopExit.broke := by
  simp [chatLoop, hline]

theorem chatLoop_cons_err_fst (agent : String → Except String (List Chunk))
    (line : String) (rest : List String) (msg : String)
    (hline : (toLowerCase line == "exit") = false)
    (hag : agent line = Except.error msg) :
    (chatLoop agent (line :: rest)).1
      = [Event.promptShown "> ", Event.lineRead line, Event.sendToAgent line,
         Event.logErr ("Error: " ++ msg), Event.exitProcess 1] := by
  simp [chatLoop, hline, hag]

theorem chatLoop_cons_err_snd (agent : String → Except String (List Chunk))
    (line : String) (rest : List String) (msg : String)
    (hline : (toLowerCase line == "exit") = false)
    (hag : agent line = Except.error msg) :
    (chatLoop agent (line :: rest)).2 = LoopExit.errored := by
  simp [chatLoop, hline, hag]

theorem chatLoop_cons_ok_fst (agent : String → Except String (List Chunk))
    (line : String) (rest : List String) (cs : List Chunk)
    (hline : (toLowerCase line == "exit") = false)
    (hag : agent line = Except.ok cs) :
    (chatLoop agent (line :: rest)).1
      = [Event.promptShown "> ", Event.lineRead line, Event.sendToAgent line]
          ++ streamEvents cs ++ (chatLoop agent rest).1 := by
  simp [chatLoop, hline, hag]

theorem chatLoop_cons_ok_snd (agent : String → Except String (List Chunk))
    (line : String) (rest : List String) (cs : List Chunk)
    (hline : (toLowerCase line == "exit") = false)
    (hag : agent line = Except.ok cs) :
    (chatLoop agent (line :: rest)).2 = (chatLoop agent rest).2 := by
  simp [chatLoop, hline, hag]

theorem chatLoop_no_close (agent : String → Except String (List Chunk))
    (inputs : List String) :
    Event.closeReader ∉ (chatLoop agent inputs).1 := by
  induction inputs with
  | nil => simp [chatLoop]
  | cons line rest ih =>
      cases heq : toLowerCase line == "exit" with
      | true =>
          rw [chatLoop_cons_exit_fst agent line rest heq]
          simp
      | false =>
          cases hag : agent line with
          | error msg =>
              rw [chatLoop_cons_err_fst agent line rest msg heq hag]
              simp
          | ok cs =>
              rw [chatLoop_cons_ok_fst agent line rest cs heq hag]
              intro hmem
              rcases List.mem_append.mp hmem with h | h
              · rcases List.mem_append.mp h with h | h
                · simp at h
                · exact streamEvents_no_close cs h
              · exact ih h

theorem chatLoop_errored (agent : String → Except String (List Chunk))
    (inputs : List String) (h : (chatLoop agent inputs).2 = LoopExit.errored) :
    Event.exitProcess 1 ∈ (chatLoop agent inputs).1
    ∧ ∃ msg, Event.logErr ("Error: " ++ msg) ∈ (chatLoop agent inputs).1 := by
  induction inputs with
  | nil => simp [chatLoop] at h
  | cons line rest ih =>
      cases heq : toLowerCase line == "exit" with
      | true =>
          rw [chatLoop_cons_exit_snd agent line rest heq] at h
          exact absurd h (by simp)
      | false =>
          cases hag : agent line with
          | error msg =>
              rw [chatLoop_cons_err_fst agent line rest msg heq hag]
              refine ⟨by simp, msg, by simp⟩
          | ok cs =>
              rw [chatLoop_cons_ok_snd agent line rest cs heq hag] at h
              rcases ih h with ⟨h1, msg, h2⟩
              rw [chatLoop_cons_ok_fst agent line rest cs heq hag]
              exact ⟨List.mem_append_right _ h1, msg, List.mem_append_right _ h2⟩

theorem runChatMode_err (agent : String → Except String (List Chunk))
    (inputs : List String) (msg : String)
    (hag : agent initialPrompt = Except.error msg) :
    runChatMode agent inputs
      = (chatPreamble ++ [Event.logErr ("Error: " ++ msg), Event.exitProcess 1],
         Outcome.exitedNonzero) := by
  simp [runChatMode, hag]

theorem runChatMode_broke (agent : String → Except String (List Chunk))
    (inputs : List String) (chunks : List Chunk) (evs : List Event)
    (hag : agent initialPrompt = Except.ok chunks)
    (hl : chatLoop agent inputs = (evs, LoopExit.broke)) :
    runChatMode agent inputs
      = (chatPreamble ++ streamEvents chunks ++ evs ++ [Event.closeReader],
         Outcome.exitedZero) := by
  simp [runChatMode, hag, hl]

theorem runChatMode_errored (agent : String → Except String (List Chunk))
    (inputs : List String) (chunks : List Chunk) (evs : List Event)
    (hag : agent initialPrompt = Except.ok chunks)
    (hl : chatLoop agent inputs = (evs, LoopExit.errored)) :
    runChatMode agent inputs
      = (chatPreamble ++ streamEvents chunks ++ evs, Outcome.exitedNonzero) := by
  simp [runChatMode, hag, hl]

theorem runChatMode_pending (agent : String → Except String (List Chunk))
    (inputs : List String) (chunks : List Chunk) (evs : List Event)
    (hag : agent initialPrompt = Except.ok chunks)
    (hl : chatLoop agent inputs = (evs, LoopExit.pending)) :
    runChatMode agent inputs
      = (chatPreamble ++ streamEvents chunks ++ evs, Outcome.awaitingInput) := by
  simp [runChatMode, hag, hl]

/-- Counterexample to C1: when the opening stream throws, the catch
prints the message and `process.exit(1)` terminates the process before
the finalizer runs, so the input reader is never closed on this exit
path. -/
theorem reader_close_cex :
    (runChatMode agentBoom []).2 = Outcome.exitedNonzero
    ∧ Event.exitProcess 1 ∈ (runChatMode agentBoom []).1
    ∧ Event.closeReader ∉ (runChatMode agentBoom []).1 := by
  decide

/-- C1 amended: on normal termination (the exit command) the reader is
closed exactly once; on a thrown error the message is printed and the
process terminates with non-zero status, but `process.exit(1)` preempts
the finally clause, so the reader is not closed on the error path. -/
theorem reader_cleanup_spec (agent : String → Except String (List Chunk))
    (inputs : List String) :
    ((runChatMode agent inputs).2 = Outcome.exitedZero →
        ((runChatMode agent inputs).1.count Event.closeReader) = 1)
    ∧ ((runChatMode agent inputs).2 = Outcome.exitedNonzero →
        Event.exitProcess 1 ∈ (runChatMode agent inputs).1
        ∧ (∃ msg, Event.logErr ("Error: " ++ msg) ∈ (runChatMode agent inputs).1)
        ∧ Event.closeReader ∉ (runChatMode agent inputs).1) := by
  cases hag : agent initialPrompt with
  | error msg =>
      rw [runChatMode_err agent inputs msg hag]
      constructor
      · intro h
        exact absurd h (by simp)
      · intro _
        refine ⟨?_, ⟨msg, ?_⟩, ?_⟩
        · exact List.mem_append_right _ (by simp)
        · exact List.mem_append_right _ (by simp)
        · intro hmem
          rcases List.mem_append.mp hmem with h | h
          · simp [chatPreamble] at h
          · simp at h
  | ok chunks =>
      rcases hl : chatLoop agent inputs with ⟨evs, ex⟩
      have hclose : Event.closeReader ∉ evs := by
        have h := chatLoop_no_close agent inputs
        rw [hl] at h
        exact h
      cases ex with
      | broke =>
          rw [runChatMode_broke agent inputs chunks evs hag hl]
          constructor
          · intro _
            have h1 : chatPreamble.count Event.closeReader = 0 := by decide
            have h2 : List.count Event.closeReader [Event.closeReader] = 1 := by decide
            rw [List.count_append, List.count_append, List.count_append, h1, h2,
                List.count_eq_zero.mpr (streamEvents_no_close chunks),
                List.count_eq_zero.mpr hclose]
          · intro h
            exact absurd h (by simp)
      | errored =>
          have herr := chatLoop_errored agent inputs (by rw [hl])
          rw [hl] at herr
          rcases herr with ⟨h1, msg, h2⟩
          rw [runChatMode_errored agent inputs chunks evs hag hl]
          constructor
          · intro h
            exact absurd h (by simp)
          · intro _
            refine ⟨List.mem_append_right _ h1, ⟨msg, List.mem_append_right _ h2⟩, ?_⟩
            intro hmem
            rcases List.mem_append.mp hmem with h | h
            · rcases List.mem_append.mp h with h | h
              · simp [chatPreamble] at h
              · exact streamEvents_no_close chunks h
            · exact hclose h
      | pending =>
          rw [runChatMode_pending agent inputs chunks evs hag hl]
          constructor
          · intro h
            exact absurd h (by simp)
          · intro h
            exact absurd h (by simp)

/-- Witness for C1's amended claim: a normal run closes the reader once,
and a throwing run reaches `process.exit(1)` with the reader left open. -/
theorem reader_cleanup_spec_witness :
    ((runChatMode agentOkConst ["exit"]).1.count Event.closeReader) = 1
    ∧ Event.exitProcess 1 ∈ (runChatMode agentBoom ["hi"]).1
    ∧ Event.closeReader ∉ (runChatMode agentBoom ["hi"]).1 := by
  refine ⟨?_, ?_, ?_⟩
  · exact (reader_cleanup_spec agentOkConst ["exit"]).1 (by decide)
  · exact ((reader_cleanup_spec agentBoom ["hi"]).2 (by decide)).1
  · exact ((reader_cleanup_spec agentBoom ["hi"]).2 (by decide)).2.2

theorem chatLoop_exit_line (agent : String → Except String (List Chunk))
    (preLines rest : List String) (line : String)
    (hpre : ∀ l ∈ preLines, toLowerCase l ≠ "exit" ∧ ∃ cs, agent l = Except.ok cs)
    (hline : toLowerCase line = "exit") :
    (chatLoop agent (preLines ++ line :: rest)).2 = LoopExit.broke
    ∧ Event.sendToAgent line ∉ (chatLoop agent (preLines ++ line :: rest)).1 := by
  induction preLines with
  | nil =>
      have hb : (toLowerCase line == "exit") = true := by simp [hline]
      refine ⟨?_, ?_⟩
      · rw [List.nil_append, chatLoop_cons_exit_snd agent line rest hb]
      · rw [List.nil_append, chatLoop_cons_exit_fst agent line rest hb]
        simp
  | cons l ls ih =>
      obtain ⟨hne, cs, hcs⟩ := hpre l (List.mem_cons_self l ls)
      have hb : (toLowerCase l == "exit") = false := by simp [hne]
      have ihh := ih (fun x hx => hpre x (List.mem_cons_of_mem l hx))
      refine ⟨?_, ?_⟩
      · rw [List.cons_append, chatLoop_cons_ok_snd agent l (ls ++ line :: rest) cs hb hcs]
        exact ihh.1
      · rw [List.cons_append, chatLoop_cons_ok_fst agent l (ls ++ line :: rest) cs hb hcs]
        intro hmem
        rcases List.mem_append.mp hmem with h | h
        · rcases List.mem_append.mp h with h | h
          · simp at h
            rw [h] at hline
            exact hne hline
          · exact streamEvents_no_send line cs h
        · exact ihh.2 h

/-- C3: on an input line that case-insensitively equals "exit" (after any
run of forwarded non-exit lines), the chat loop terminates, the reader
is closed exactly once, the exit line itself is never forwarded to the
agent, and the process exits with status 0. -/
theorem exit_command_spec (agent : String → Except String (List Chunk))
    (preLines rest : List String) (line : String)
    (hinit : ∃ cs0, agent initialPrompt = Except.ok cs0)
    (hpre : ∀ l ∈ preLines, toLowerCase l ≠ "exit" ∧ ∃ cs, agent l = Except.ok cs)
    (hline : toLowerCase line = "exit") :
    (runChatMode agent (preLines ++ line :: rest)).2 = Outcome.exitedZero
    ∧ ((runChatMode agent (preLines ++ line :: rest)).1.count Event.closeReader) = 1
    ∧ Event.sendToAgent line ∉ (runChatMode agent (preLines ++ line :: rest)).1 := by
  obtain ⟨cs0, hcs0⟩ := hinit
  have hcl := chatLoop_exit_line agent preLines rest line hpre hline
  rcases hl : chatLoop agent (preLines ++ line :: rest) with ⟨evs, ex⟩
  rw [hl] at hcl
  have hex : ex = LoopExit.broke := hcl.1
  subst hex
  have hsend : Event.sendToAgent line ∉ evs := hcl.2
  have hclose : Event.closeReader ∉ evs := by
    have h := chatLoop_no_close agent (preLines ++ line :: rest)
    rw [hl] at h
    exact h
  rw [runChatMode_broke agent (preLines ++ line :: rest) cs0 evs hcs0 hl]
  refine ⟨rfl, ?_, ?_⟩
  · have h1 : chatPreamble.count Event.closeReader = 0 := by decide
    have h2 : List.count Event.closeReader [Event.closeReader] = 1 := by decide
    rw [List.count_append, List.count_append, List.count_append, h1, h2,
        List.count_eq_zero.mpr (streamEvents_no_close cs0),
        List.count_eq_zero.mpr hclose]
  · intro hmem
    rcases List.mem_append.mp hmem with h | h
    · rcases List.mem_append.mp h with h | h
      · rcases List.mem_append.mp h with h | h
        · simp [chatPreamble] at h
          rw [h] at hline
          exact absurd hline (by decide)
        · exact streamEvents_no_send line cs0 h
      · exact hsend h
    · simp at h

/-- Witness for C3: the run `["hi", "EXIT"]` against a one-chunk agent
ends with status 0, one reader close, and no forwarding of "EXIT". -/
theorem exit_command_spec_witness :
    (runChatMode agentOkConst (["hi"] ++ "EXIT" :: [])).2 = Outcome.exitedZero
    ∧ ((runChatMode agentOkConst (["hi"] ++ "EXIT" :: [])).1.count Event.closeReader) = 1
    ∧ Event.sendToAgent "EXIT" ∉ (runChatMode agentOkConst (["hi"] ++ "EXIT" :: [])).1 := by
  exact exit_command_spec agentOkConst ["hi"] [] "EXIT"
    ⟨[chunkAgentOnly], rfl⟩
    (by
      intro l hl
      have hl2 : l = "hi" := by simpa using hl
      subst hl2
      exact ⟨by decide, [chunkAgentOnly], rfl⟩)
    (by decide)

/-- C5: for every streamed chunk, the chunk output is the agent message
content if the chunk carries an "agent" key, otherwise the tools message
content if it carries a "tools" key, and the separator line is printed
after the chunk in all cases. -/
theorem chunk_print_spec (c : Chunk) :
    (∀ s, c.agent = some s → chunkEvents c = [Event.log s, Event.log separator])
    ∧ (c.agent = none → ∀ s, c.tools = some s →
        chunkEvents c = [Event.log s, Event.log separator])
    ∧ (c.agent = none → c.tools = none → chunkEvents c = [Event.log separator])
    ∧ (chunkEvents c).getLast? = some (Event.log separator) := by
  rcases c with ⟨a, t⟩
  cases a with
  | some s0 =>
      refine ⟨fun s hs => ?_, fun h => absurd h (by simp), fun h => absurd h (by simp), rfl⟩
      injection hs with h1
      subst h1
      rfl
  | none =>
      cases t with
      | some t0 =>
          refine ⟨fun s hs => absurd hs (by simp), fun _ s hs => ?_,
                  fun _ h => absurd h (by simp), rfl⟩
          injection hs with h1
          subst h1
          rfl
      | none =>
          exact ⟨fun s hs => absurd hs (by simp), fun _ s hs => absurd hs (by simp),
                 fun _ _ => rfl, rfl⟩

/-- Witness for C5 on the three chunk shapes. -/
theorem chunk_print_spec_witness :
    chunkEvents chunkAgentOnly = [Event.log "hello", Event.log separator]
    ∧ chunkEvents { agent := none, tools := some "tool output" }
        = [Event.log "tool output", Event.log separator]
    ∧ chunkEvents { agent := none, tools := none } = [Event.log separator] := by
  refine ⟨?_, ?_, ?_⟩
  · exact (chunk_print_spec chunkAgentOnly).1 "hello" rfl
  · exact (chunk_print_spec { agent := none, tools := some "tool output" }).2.1 rfl
      "tool output" rfl
  · exact (chunk_print_spec { agent := none, tools := none }).2.2.1 rfl rfl

/-- C9: every run whose opening stream succeeds starts with a prefix
containing exactly one dispatch of the fixed scripted opening prompt and
all of its chunk output, with no user input prompt in that prefix; and
every non-exit turn contributes its prompt, its single forwarded
message, and its fully drained chunk output before the trace of the
remaining turns begins. -/
theorem opening_prompt_spec (agent : String → Except String (List Chunk))
    (inputs : List String) (chunks : List Chunk)
    (hinit : agent initialPrompt = Except.ok chunks) :
    (∃ tail,
       (runChatMode agent inputs).1
         = (chatPreamble ++ streamEvents chunks) ++ ((chatLoop agent inputs).1 ++ tail)
       ∧ (chatPreamble ++ streamEvents chunks).count (Event.sendToAgent initialPrompt) = 1
       ∧ (∀ m, m ≠ initialPrompt →
           Event.sendToAgent m ∉ chatPreamble ++ streamEvents chunks)
       ∧ (∀ p, Event.promptShown p ∉ chatPreamble ++ streamEvents chunks))
    ∧ (∀ line rest cs, toLowerCase line ≠ "exit" → agent line = Except.ok cs →
        (chatLoop agent (line :: rest)).1
          = [Event.promptShown "> ", Event.lineRead line, Event.sendToAgent line]
              ++ streamEvents cs ++ (chatLoop agent rest).1) := by
  constructor
  · have hcount :
        (chatPreamble ++ streamEvents chunks).count (Event.sendToAgent initialPrompt) = 1 := by
      have h1 : chatPreamble.count (Event.sendToAgent initialPrompt) = 1 := by decide
      rw [List.count_append, h1,
          List.count_eq_zero.mpr (streamEvents_no_send initialPrompt chunks)]
    have hnosend : ∀ m, m ≠ initialPrompt →
        Event.sendToAgent m ∉ chatPreamble ++ streamEvents chunks := by
      intro m hm hmem
      rcases List.mem_append.mp hmem with h | h
      · simp [chatPreamble] at h
        exact hm h
      · exact streamEvents_no_send m chunks h
    have hnoprompt : ∀ p, Event.promptShown p ∉ chatPreamble ++ streamEvents chunks := by
      intro p hmem
      rcases List.mem_append.mp hmem with h | h
      · simp [chatPreamble] at h
      · exact streamEvents_no_prompt p chunks h
    rcases hl : chatLoop agent inputs with ⟨evs, ex⟩
    cases ex with
    | broke =>
        refine ⟨[Event.closeReader], ?_, hcount, hnosend, hnoprompt⟩
        rw [runChatMode_broke agent inputs chunks evs hinit hl]
        simp [List.append_assoc]
    | errored =>
        refine ⟨[], ?_, hcount, hnosend, hnoprompt⟩
        rw [runChatMode_errored agent inputs chunks evs hinit hl]
        simp [List.append_assoc]
    | pending =>
        refine ⟨[], ?_, hcount, hnosend, hnoprompt⟩
        rw [runChatMode_pending agent inputs chunks evs hinit hl]
        simp [List.append_assoc]
  · intro line rest cs hne hok
    have hb : (toLowerCase line == "exit") = false := by simp [hne]
    exact chatLoop_cons_ok_fst agent line rest cs hb hok

/-- Witness for C9 at a concrete agent, script and chunk list. -/
theorem opening_prompt_spec_witness :
    (chatPreamble ++ streamEvents [chunkAgentOnly]).count
        (Event.sendToAgent initialPrompt) = 1
    ∧ Event.promptShown "> " ∉ chatPreamble ++ streamEvents [chunkAgentOnly]
    ∧ (chatLoop agentOkConst ["hi", "exit"]).1
        = [Event.promptShown "> ", Event.lineRead "hi", Event.sendToAgent "hi"]
            ++ streamEvents [chunkAgentOnly] ++ (chatLoop agentOkConst ["exit"]).1 := by
  obtain ⟨⟨tail, htr, hcount, hnosend, hnoprompt⟩, hturn⟩ :=
    opening_prompt_spec agentOkConst ["exit"] [chunkAgentOnly] rfl
  exact ⟨hcount, hnoprompt "> ", hturn "hi" ["exit"] [chunkAgentOnly] (by decide) rfl⟩

/-- C10: the exit comparison is an exact whole-line case-insensitive
equality with no trimming: any line whose lowercasing differs from
"exit" is forwarded to the agent as a new message and the loop
continues. -/
theorem nonexit_forward_spec (agent : String → Except String (List Chunk))
    (line : String) (rest : List String) (cs : List Chunk)
    (hok : agent line = Except.ok cs)
    (hne : toLowerCase line ≠ "exit") :
    Event.sendToAgent line ∈ (chatLoop agent (line :: rest)).1
    ∧ (chatLoop agent (line :: rest)).2 = (chatLoop agent rest).2 := by
  have hb : (toLowerCase line == "exit") = false := by simp [hne]
  constructor
  · rw [chatLoop_cons_ok_fst agent line rest cs hb hok]
    exact List.mem_append_left _ (List.mem_append_left _ (by simp))
  · exact chatLoop_cons_ok_snd agent line rest cs hb hok

/-- Witness for C10: "exit " (trailing space), " exit" (leading space)
and "quit" are all forwarded rather than terminating the loop. -/
theorem nonexit_forward_spec_witness :
    (Event.sendToAgent "exit " ∈ (chatLoop agentOkConst ["exit "]).1
       ∧ (chatLoop agentOkConst ["exit "]).2 = (chatLoop agentOkConst []).2)
    ∧ (Event.sendToAgent " exit" ∈ (chatLoop agentOkConst [" exit"]).1
       ∧ (chatLoop agentOkConst [" exit"]).2 = (chatLoop agentOkConst []).2)
    ∧ (Event.sendToAgent "quit" ∈ (chatLoop agentOkConst ["quit"]).1
       ∧ (chatLoop agentOkConst ["quit"]).2 = (chatLoop agentOkConst []).2) :=
  ⟨nonexit_forward_spec agentOkConst "exit " [] [chunkAgentOnly] rfl (by decide),
   nonexit_forward_spec agentOkConst " exit" [] [chunkAgentOnly] rfl (by decide),
   nonexit_forward_spec agentOkConst "quit" [] [chunkAgentOnly] rfl (by decide)⟩
